import Mathlib

/-!
Shallow embedding of the offline upload-queue retry mechanism of the
Saral-KYC service worker (sw.js section of src/server.js): the IndexedDB
upload-queue store (`openDB`, object store `upload_queue` with
autoIncrement keys), its cursor enumeration (`getAllFromStore`), key
deletion (`deleteFromStore`), the drain cycle (`processUploadQueue`), and
the `sync` event listener.

Modeling choices:
- The IndexedDB object store is a list of (key, request) pairs plus the
  key generator's next value; autoIncrement keys start at 1.
- A replay (`fetch`) outcome is either a transport error or a response
  with a numeric status; `response.ok` is status in 200..299.
- Environmental failures are oracles: `cursorFails` models the cursor
  request of `getAllFromStore` rejecting, and a function `d : Nat → Bool`
  models the per-key delete request rejecting.
- `processUploadQueue` returns the store after the cycle together with
  either a propagated error (the enumeration rejected, outside every
  per-entry try/catch) or the list of per-entry outcomes; all per-entry
  errors, including a failed deletion after a 2xx response, are caught
  inside that entry's handler, exactly as in the source's try/catch.
-/

/-- One pending HTTP call captured for later replay: url, method, headers,
body, as stored in the `upload_queue` object store. -/
structure QueuedRequest where
  url : String
  method : String
  headers : List (String × String)
  body : String
deriving Repr, DecidableEq

/-- The `upload_queue` IndexedDB object store: current entries in key
order together with the autoIncrement key generator's next key. -/
structure UploadQueueStore where
  entries : List (Nat × QueuedRequest)
  nextKey : Nat
deriving Repr, DecidableEq

/-- `openDB` creates the `upload_queue` object store with
`autoIncrement: true`; a fresh store is empty and IndexedDB
autoIncrement keys start at 1. -/
def openDB : UploadQueueStore :=
  { entries := [], nextKey := 1 }

/-- `getAllFromStore`: cursor enumeration of all current entries; an
IndexedDB cursor over autoIncrement keys yields entries in ascending key
order, which is insertion order, and does not mutate the store. -/
def getAllFromStore (s : UploadQueueStore) : List (Nat × QueuedRequest) :=
  s.entries

/-- `deleteFromStore`: `store.delete(key)`; IndexedDB `delete` removes the
entry under `key` when present and resolves successfully (a no-op) when
the key is absent. -/
def deleteFromStore (s : UploadQueueStore) (key : Nat) : UploadQueueStore :=
  { s with entries := s.entries.filter (fun e => e.1 != key) }

/-- Modelled from the spec: the Queue Enqueuer's `put(request) -> key` is
client-side page code not present under src; the object store is created
with `autoIncrement: true` in `openDB`, so IndexedDB appends the entry
under the key generator's current key and increments the generator. -/
def putInStore (s : UploadQueueStore) (r : QueuedRequest) :
    UploadQueueStore × Nat :=
  ({ entries := s.entries ++ [(s.nextKey, r)], nextKey := s.nextKey + 1 },
   s.nextKey)

/-- Outcome of one `fetch` replay: a transport-level failure (the fetch
promise rejects) or an HTTP response with a status code. -/
inductive FetchOutcome where
  | networkError : FetchOutcome
  | response : Nat → FetchOutcome
deriving Repr, DecidableEq

/-- `response.ok` per the Fetch standard: status in the range 200..299. -/
def responseOk (status : Nat) : Bool :=
  decide (200 ≤ status ∧ status < 300)

/-- A replay attempt succeeded: it produced a response whose status
indicates success (the code throws on `!response.ok`). -/
def replaySucceeds : FetchOutcome → Bool
  | FetchOutcome.networkError => false
  | FetchOutcome.response st => responseOk st

/-- What happened to one snapshot entry during a drain cycle: replay
succeeded and the entry was deleted; replay failed (transport error
or non-success status, caught in the entry's handler); or replay
succeeded but the deletion request failed (also caught). -/
inductive EntryOutcome where
  | uploaded : EntryOutcome
  | fetchFailed : EntryOutcome
  | deleteFailed : EntryOutcome
deriving Repr, DecidableEq

/-- The body of the per-entry async handler in `processUploadQueue`:
replay the request; on `response.ok`, delete the entry by its key in a
fresh transaction; every error (transport failure, non-success status
thrown as an Error, or a rejected delete) is caught by the entry's own
try/catch, leaving the store untouched for that entry. `f` gives the
fetch outcome per (key, request), `d` tells whether the delete request
for a key rejects. -/
def replayEntry (f : Nat → QueuedRequest → FetchOutcome) (d : Nat → Bool)
    (s : UploadQueueStore) (e : Nat × QueuedRequest) :
    UploadQueueStore × EntryOutcome :=
  match f e.1 e.2 with
  | FetchOutcome.networkError => (s, EntryOutcome.fetchFailed)
  | FetchOutcome.response st =>
    if responseOk st then
      if d e.1 then (s, EntryOutcome.deleteFailed)
      else (deleteFromStore s e.1, EntryOutcome.uploaded)
    else (s, EntryOutcome.fetchFailed)

/-- The outcome of one entry's handler, which depends only on that entry
and the oracles, never on the store or the other entries. -/
def entryOutcome (f : Nat → QueuedRequest → FetchOutcome) (d : Nat → Bool)
    (e : Nat × QueuedRequest) : EntryOutcome :=
  match f e.1 e.2 with
  | FetchOutcome.networkError => EntryOutcome.fetchFailed
  | FetchOutcome.response st =>
    if responseOk st then
      if d e.1 then EntryOutcome.deleteFailed
      else EntryOutcome.uploaded
    else EntryOutcome.fetchFailed

/-- Replay every entry of the snapshot (the `Promise.all` over
`requests.map`), threading the store through the per-key deletions and
collecting the per-entry outcomes. -/
def drainSnapshot (f : Nat → QueuedRequest → FetchOutcome) (d : Nat → Bool) :
    List (Nat × QueuedRequest) → UploadQueueStore →
    UploadQueueStore × List EntryOutcome
  | [], s => (s, [])
  | e :: rest, s =>
    let p := replayEntry f d s e
    let q := drainSnapshot f d rest p.1
    (q.1, p.2 :: q.2)

/-- `processUploadQueue`: snapshot the queue with `getAllFromStore`, then
replay every snapshot entry. If the enumeration's cursor request rejects
(`cursorFails`), the rejection happens outside every per-entry try/catch,
so the returned promise rejects and the store is untouched; otherwise the
cycle resolves with the per-entry outcomes. -/
def processUploadQueue (cursorFails : Bool)
    (f : Nat → QueuedRequest → FetchOutcome) (d : Nat → Bool)
    (s : UploadQueueStore) :
    UploadQueueStore × Except String (List EntryOutcome) :=
  if cursorFails then (s, Except.error "IndexedDB cursor error")
  else
    let p := drainSnapshot f d (getAllFromStore s) s
    (p.1, Except.ok p.2)

/-- The `sync` event listener: only an event whose tag is exactly
"sync-uploads" runs `processUploadQueue` (abstracted here as an arbitrary
drain action, to show no drain at all runs otherwise); any other tag does
nothing, leaving the store unchanged with no replay attempted. -/
def handleSyncEvent
    (drainAction : UploadQueueStore →
      UploadQueueStore × Except String (List EntryOutcome))
    (tag : String) (s : UploadQueueStore) :
    UploadQueueStore × Except String (List EntryOutcome) :=
  if tag = "sync-uploads" then drainAction s else (s, Except.ok [])

/-- A key of a snapshot entry whose handler commits a deletion this
cycle: its replay succeeded and its delete request did not reject. -/
def shouldDelete (f : Nat → QueuedRequest → FetchOutcome) (d : Nat → Bool)
    (e : Nat × QueuedRequest) : Bool :=
  replaySucceeds (f e.1 e.2) && !(d e.1)

/-- `killedKey f d snap k`: some entry of the snapshot has key `k` and
commits a deletion this cycle. -/
def killedKey (f : Nat → QueuedRequest → FetchOutcome) (d : Nat → Bool)
    (snap : List (Nat × QueuedRequest)) (k : Nat) : Bool :=
  snap.any (fun e => shouldDelete f d e && (k == e.1))

/-- Store well-formedness: entry keys are strictly increasing in list
order (autoIncrement insertion order), hence pairwise distinct. -/
def UploadQueueStore.WF (s : UploadQueueStore) : Prop :=
  List.Pairwise (fun a b => a.1 < b.1) s.entries

/-- A run of drain cycles in sequence: each element gives that cycle's
fetch oracle and delete-failure oracle; every cycle's enumeration
succeeds. -/
def runDrains
    (ps : List ((Nat → QueuedRequest → FetchOutcome) × (Nat → Bool)))
    (s : UploadQueueStore) : UploadQueueStore :=
  ps.foldl (fun st p => (processUploadQueue false p.1 p.2 st).1) s

/-- Two drain cycles interleaved adversarially: both snapshot the store
before either cycle's deletions commit, then the deletions of the first
cycle and then of the second are applied to the shared store. -/
def concurrentDrains (f1 : Nat → QueuedRequest → FetchOutcome)
    (d1 : Nat → Bool) (f2 : Nat → QueuedRequest → FetchOutcome)
    (d2 : Nat → Bool) (s : UploadQueueStore) :
    UploadQueueStore × List EntryOutcome × List EntryOutcome :=
  let snap := getAllFromStore s
  let p1 := drainSnapshot f1 d1 snap s
  let p2 := drainSnapshot f2 d2 snap p1.1
  (p2.1, p1.2, p2.2)

/-- An operation on a store instance over its lifetime: an Enqueuer put,
an explicit discard, or a drain cycle. -/
inductive StoreOp where
  | put : QueuedRequest → StoreOp
  | del : Nat → StoreOp
  | drain : (Nat → QueuedRequest → FetchOutcome) → (Nat → Bool) → StoreOp

/-- Apply one operation to the store. -/
def applyOp (s : UploadQueueStore) : StoreOp → UploadQueueStore
  | StoreOp.put r => (putInStore s r).1
  | StoreOp.del k => deleteFromStore s k
  | StoreOp.drain f d => (processUploadQueue false f d s).1

/-- The keys `put` hands out along a run of operations, in order. -/
def assignedKeys (s : UploadQueueStore) : List StoreOp → List Nat
  | [] => []
  | StoreOp.put r :: ops =>
    (putInStore s r).2 :: assignedKeys (applyOp s (StoreOp.put r)) ops
  | StoreOp.del k :: ops => assignedKeys (applyOp s (StoreOp.del k)) ops
  | StoreOp.drain f d :: ops =>
    assignedKeys (applyOp s (StoreOp.drain f d)) ops

/-- A sample captured document-upload request, for witnesses. -/
def reqDoc : QueuedRequest :=
  { url := "/api/kyc/document-upload", method := "POST"
    headers := [("Content-Type", "multipart/form-data")]
    body := "doc-payload" }

/-- A sample captured face-scan request, for witnesses. -/
def reqFace : QueuedRequest :=
  { url := "/api/kyc/face-scan", method := "POST"
    headers := [], body := "face-payload" }

lemma replayEntry_fst (f : Nat → QueuedRequest → FetchOutcome)
    (d : Nat → Bool) (s : UploadQueueStore) (e : Nat × QueuedRequest) :
    (replayEntry f d s e).1 =
      if shouldDelete f d e then deleteFromStore s e.1 else s := by
  unfold replayEntry shouldDelete
  cases h : f e.1 e.2 with
  | networkError => simp [replaySucceeds]
  | response st =>
    by_cases hok : responseOk st
    · by_cases hd : d e.1 <;> simp [replaySucceeds, hok, hd]
    · simp [replaySucceeds, hok]

lemma replayEntry_snd (f : Nat → QueuedRequest → FetchOutcome)
    (d : Nat → Bool) (s : UploadQueueStore) (e : Nat × QueuedRequest) :
    (replayEntry f d s e).2 = entryOutcome f d e := by
  unfold replayEntry entryOutcome
  cases h : f e.1 e.2 with
  | networkError => simp
  | response st =>
    by_cases hok : responseOk st
    · by_cases hd : d e.1 <;> simp [hok, hd]
    · simp [hok]

lemma drainSnapshot_snd (f : Nat → QueuedRequest → FetchOutcome)
    (d : Nat → Bool) :
    ∀ (snap : List (Nat × QueuedRequest)) (s : UploadQueueStore),
      (drainSnapshot f d snap s).2 = snap.map (entryOutcome f d) := by
  intro snap
  induction snap with
  | nil => intro s; simp [drainSnapshot]
  | cons e rest ih =>
    intro s
    simp [drainSnapshot, ih, replayEntry_snd]

lemma drainSnapshot_fst_nextKey (f : Nat → QueuedRequest → FetchOutcome)
    (d : Nat → Bool) :
    ∀ (snap : List (Nat × QueuedRequest)) (s : UploadQueueStore),
      (drainSnapshot f d snap s).1.nextKey = s.nextKey := by
  intro snap
  induction snap with
  | nil => intro s; simp [drainSnapshot]
  | cons e rest ih =>
    intro s
    simp only [drainSnapshot]
    rw [ih, replayEntry_fst]
    by_cases hsd : shouldDelete f d e <;> simp [hsd, deleteFromStore]

lemma drainSnapshot_fst_entries (f : Nat → QueuedRequest → FetchOutcome)
    (d : Nat → Bool) :
    ∀ (snap : List (Nat × QueuedRequest)) (s : UploadQueueStore),
      (drainSnapshot f d snap s).1.entries =
        s.entries.filter (fun x => !(killedKey f d snap x.1)) := by
  intro snap
  induction snap with
  | nil =>
    intro s
    simp [drainSnapshot, killedKey]
  | cons e rest ih =>
    intro s
    simp only [drainSnapshot]
    rw [ih, replayEntry_fst]
    by_cases hsd : shouldDelete f d e
    · simp only [hsd, if_true, deleteFromStore, List.filter_filter]
      apply List.filter_congr
      intro x _
      simp [killedKey, hsd, Bool.not_or, Bool.and_comm, bne]
    · simp only [hsd, if_false]
      apply List.filter_congr
      intro x _
      simp [killedKey, hsd]

lemma wf_key_inj (l : List (Nat × QueuedRequest))
    (hl : List.Pairwise (fun a b => a.1 < b.1) l) :
    ∀ e ∈ l, ∀ x ∈ l, e.1 = x.1 → e = x := by
  induction hl with
  | nil => intro e he; simp at he
  | cons hhead _htail ih =>
    intro e he x hx hk
    rcases List.mem_cons.mp he with he | he <;>
      rcases List.mem_cons.mp hx with hx | hx
    · rw [he, hx]
    · exact absurd (he ▸ hk) (Nat.ne_of_lt (hhead x hx))
    · exact absurd (hx ▸ hk.symm) (Nat.ne_of_lt (hhead e he))
    · exact ih e he x hx hk

lemma processUploadQueue_fst_entries (f : Nat → QueuedRequest → FetchOutcome)
    (d : Nat → Bool) (s : UploadQueueStore) :
    (processUploadQueue false f d s).1.entries =
      s.entries.filter (fun x => !(killedKey f d s.entries x.1)) := by
  simp [processUploadQueue, getAllFromStore, drainSnapshot_fst_entries]

lemma processUploadQueue_snd (f : Nat → QueuedRequest → FetchOutcome)
    (d : Nat → Bool) (s : UploadQueueStore) :
    (processUploadQueue false f d s).2 =
      Except.ok (s.entries.map (entryOutcome f d)) := by
  simp [processUploadQueue, getAllFromStore, drainSnapshot_snd]

lemma processUploadQueue_WF (f : Nat → QueuedRequest → FetchOutcome)
    (d : Nat → Bool) (s : UploadQueueStore) (hwf : s.WF) :
    ((processUploadQueue false f d s).1).WF := by
  unfold UploadQueueStore.WF at hwf ⊢
  rw [processUploadQueue_fst_entries]
  exact hwf.sublist (List.filter_sublist s.entries)

lemma killedKey_eq_false_of_fail (f : Nat → QueuedRequest → FetchOutcome)
    (d : Nat → Bool) (s : UploadQueueStore) (e : Nat × QueuedRequest)
    (hwf : s.WF) (he : e ∈ s.entries)
    (hfail : replaySucceeds (f e.1 e.2) = false) :
    killedKey f d s.entries e.1 = false := by
  rw [killedKey, List.any_eq_false]
  intro x hx
  by_cases hbe : e.1 = x.1
  · have hex : e = x := wf_key_inj s.entries hwf e he x hx hbe
    simp [shouldDelete, ← hex, hfail]
  · simp [hbe]

lemma killedKey_eq_false_of_deleteFails
    (f : Nat → QueuedRequest → FetchOutcome) (d : Nat → Bool)
    (l : List (Nat × QueuedRequest)) (k : Nat) (hd : d k = true) :
    killedKey f d l k = false := by
  rw [killedKey, List.any_eq_false]
  intro x hx
  by_cases hbe : k = x.1
  · simp [shouldDelete, ← hbe, hd]
  · simp [hbe]

lemma mem_drain_of_not_killed (f : Nat → QueuedRequest → FetchOutcome)
    (d : Nat → Bool) (s : UploadQueueStore) (e : Nat × QueuedRequest)
    (he : e ∈ s.entries) (hk : killedKey f d s.entries e.1 = false) :
    e ∈ (processUploadQueue false f d s).1.entries := by
  rw [processUploadQueue_fst_entries, List.mem_filter]
  exact ⟨he, by simp [hk]⟩

/-- Claim C1: in a drain cycle (with the store's deletions functioning),
every snapshot entry is deleted from the store by its key if and only if
its replay returned a success status; on a transport-level failure or a
non-success status the entry is left in the store untouched. -/
theorem drain_deletes_iff_replay_succeeds
    (s : UploadQueueStore) (f : Nat → QueuedRequest → FetchOutcome)
    (e : Nat × QueuedRequest) (hwf : s.WF) (he : e ∈ s.entries) :
    ∃ s' outs,
      processUploadQueue false f (fun _ => false) s = (s', Except.ok outs) ∧
      (e.1 ∉ s'.entries.map Prod.fst ↔ replaySucceeds (f e.1 e.2) = true) ∧
      (replaySucceeds (f e.1 e.2) = false → e ∈ s'.entries) := by
  have hsplit : processUploadQueue false f (fun _ => false) s =
      ((processUploadQueue false f (fun _ => false) s).1,
       Except.ok (s.entries.map (entryOutcome f (fun _ => false)))) := by
    rw [← processUploadQueue_snd f (fun _ => false) s]
  have hret : replaySucceeds (f e.1 e.2) = false →
      e ∈ (processUploadQueue false f (fun _ => false) s).1.entries :=
    fun hfail => mem_drain_of_not_killed _ _ _ _ he
      (killedKey_eq_false_of_fail _ _ _ _ hwf he hfail)
  have hgone : replaySucceeds (f e.1 e.2) = true →
      e.1 ∉ (processUploadQueue false f (fun _ => false) s).1.entries.map
        Prod.fst := by
    intro hsucc hmem
    rcases List.mem_map.mp hmem with ⟨x, hx, hx1⟩
    rw [processUploadQueue_fst_entries] at hx
    rcases List.mem_filter.mp hx with ⟨_, hxp⟩
    have hkill : killedKey f (fun _ => false) s.entries e.1 = true := by
      rw [killedKey, List.any_eq_true]
      exact ⟨e, he, by simp [shouldDelete, hsucc]⟩
    rw [← hx1] at hkill
    simp [hkill] at hxp
  refine ⟨_, _, hsplit, ⟨?_, hgone⟩, hret⟩
  intro hnm
  by_contra hne
  exact hnm (List.mem_map.mpr
    ⟨e, hret (Bool.eq_false_iff.mpr hne), rfl⟩)

/-- Witness for C1 at a concrete input: a one-entry queue whose replay
returns 200 ends the cycle with the key gone from the store. -/
theorem drain_deletes_iff_replay_succeeds_witness :
    ∃ s' outs,
      processUploadQueue false (fun _ _ => FetchOutcome.response 200)
          (fun _ => false) { entries := [(1, reqDoc)], nextKey := 2 } =
        (s', Except.ok outs) ∧
      (1 : Nat) ∉ s'.entries.map Prod.fst := by
  obtain ⟨s', outs, h1, h2, _⟩ := drain_deletes_iff_replay_succeeds
    { entries := [(1, reqDoc)], nextKey := 2 }
    (fun _ _ => FetchOutcome.response 200) (1, reqDoc)
    (by simp [UploadQueueStore.WF]) (by simp)
  exact ⟨s', outs, h1, h2.mpr (by simp [replaySucceeds, responseOk])⟩

/-- Claim C2: a replay error for one entry never aborts the replay of the
others: with two queued entries where the first replay throws a transport
error and the second succeeds, the cycle resolves, the first entry
remains queued and the second has been removed. -/
theorem drain_isolates_per_entry_failures
    (k1 k2 : Nat) (r1 r2 : QueuedRequest)
    (f : Nat → QueuedRequest → FetchOutcome) (hne : k1 ≠ k2)
    (h1 : f k1 r1 = FetchOutcome.networkError)
    (h2 : f k2 r2 = FetchOutcome.response 200) :
    processUploadQueue false f (fun _ => false)
        { entries := [(k1, r1), (k2, r2)], nextKey := k2 + 1 } =
      ({ entries := [(k1, r1)], nextKey := k2 + 1 },
       Except.ok [EntryOutcome.fetchFailed, EntryOutcome.uploaded]) := by
  have hok : responseOk 200 = true := by decide
  simp [processUploadQueue, getAllFromStore, drainSnapshot, replayEntry,
    h1, h2, hok, deleteFromStore, bne, hne]

/-- Witness for C2 at a concrete input: keys 1 and 2, transport error on
key 1, status 200 on key 2. -/
theorem drain_isolates_per_entry_failures_witness :
    processUploadQueue false
        (fun k _ => if k = 1 then FetchOutcome.networkError
          else FetchOutcome.response 200) (fun _ => false)
        { entries := [(1, reqDoc), (2, reqFace)], nextKey := 3 } =
      ({ entries := [(1, reqDoc)], nextKey := 3 },
       Except.ok [EntryOutcome.fetchFailed, EntryOutcome.uploaded]) :=
  drain_isolates_per_entry_failures 1 2 reqDoc reqFace _
    (by decide) (by simp) (by simp)

/-- Claim C3: at-least-once, never-zero delivery: an entry whose replay
fails in every cycle of a run of drain cycles is still in `list()` after
the whole run; no drain cycle removes an entry whose replay did not
succeed. -/
theorem failed_drains_never_remove_entry
    (ps : List ((Nat → QueuedRequest → FetchOutcome) × (Nat → Bool)))
    (s : UploadQueueStore) (e : Nat × QueuedRequest)
    (hwf : s.WF) (he : e ∈ s.entries)
    (hfail : ∀ p ∈ ps, replaySucceeds (p.1 e.1 e.2) = false) :
    e ∈ getAllFromStore (runDrains ps s) := by
  induction ps generalizing s with
  | nil => simpa [runDrains, getAllFromStore] using he
  | cons p rest ih =>
    have he' : e ∈ (processUploadQueue false p.1 p.2 s).1.entries :=
      mem_drain_of_not_killed _ _ _ _ he
        (killedKey_eq_false_of_fail _ _ _ _ hwf he
          (hfail p (List.mem_cons_self p rest)))
    have hwf' := processUploadQueue_WF p.1 p.2 s hwf
    exact ih _ hwf' he' (fun q hq => hfail q (List.mem_cons_of_mem p hq))

/-- Witness for C3 at a concrete input: two failing cycles (a transport
error, then a 500) leave the single queued entry in `list()`. -/
theorem failed_drains_never_remove_entry_witness :
    (1, reqDoc) ∈ getAllFromStore (runDrains
      [(fun _ _ => FetchOutcome.networkError, fun _ => false),
       (fun _ _ => FetchOutcome.response 500, fun _ => false)]
      { entries := [(1, reqDoc)], nextKey := 2 }) := by
  apply failed_drains_never_remove_entry _ _ _
    (by simp [UploadQueueStore.WF]) (by simp)
  intro p hp
  rcases List.mem_cons.mp hp with h | h
  · rw [h]; simp [replaySucceeds]
  · rcases List.mem_cons.mp h with h' | h'
    · rw [h']; simp [replaySucceeds, responseOk]
    · simp at h'

/-- Counterexample to claim C4 as stated: a concrete drain cycle in which
a store write (the deletion of key 1 after its replay returned 200) fails,
yet the cycle resolves with `Except.ok` — the deletion error is not
propagated to the caller of the drain (it is caught inside the entry's
handler, as the `deleteFailed` outcome records). -/
theorem delete_failure_not_propagated_cex :
    processUploadQueue false (fun _ _ => FetchOutcome.response 200)
        (fun _ => true) { entries := [(1, reqDoc)], nextKey := 2 } =
      ({ entries := [(1, reqDoc)], nextKey := 2 },
       Except.ok [EntryOutcome.deleteFailed]) := rfl

/-- Claim C4 (amended): a store read failure in the enumeration step is
propagated to the caller of the drain cycle — never silently swallowed —
and leaves the queue untouched; whereas when the enumeration succeeds the
cycle always resolves, so a failed deletion is never propagated. -/
theorem enumeration_failure_propagates :
    (∀ (f : Nat → QueuedRequest → FetchOutcome) (d : Nat → Bool)
        (s : UploadQueueStore),
      processUploadQueue true f d s =
        (s, Except.error "IndexedDB cursor error")) ∧
    (∀ (f : Nat → QueuedRequest → FetchOutcome) (d : Nat → Bool)
        (s : UploadQueueStore),
      ∃ outs, (processUploadQueue false f d s).2 = Except.ok outs) := by
  constructor
  · intro f d s; rfl
  · intro f d s; exact ⟨_, processUploadQueue_snd f d s⟩

/-- Claim C5: `delete(key)` is idempotent: deleting a key not present in
the store is a no-op, and a second `delete` of the same key leaves the
store exactly as the first did. -/
theorem deleteFromStore_idempotent (s : UploadQueueStore) (k : Nat) :
    deleteFromStore (deleteFromStore s k) k = deleteFromStore s k ∧
    ((∀ e ∈ s.entries, e.1 ≠ k) → deleteFromStore s k = s) := by
  constructor
  · simp [deleteFromStore, List.filter_filter]
  · intro h
    have hself : s.entries.filter (fun e => e.1 != k) = s.entries :=
      List.filter_eq_self.mpr (fun e he => by simp [bne, h e he])
    simp [deleteFromStore, hself]

/-- Witness for C5 at a concrete input: deleting absent key 7 twice from
a one-entry store; the second call equals the first and the first is a
no-op. -/
theorem deleteFromStore_idempotent_witness :
    deleteFromStore
        (deleteFromStore { entries := [(1, reqDoc)], nextKey := 2 } 7) 7 =
      deleteFromStore { entries := [(1, reqDoc)], nextKey := 2 } 7 ∧
    deleteFromStore { entries := [(1, reqDoc)], nextKey := 2 } 7 =
      { entries := [(1, reqDoc)], nextKey := 2 } :=
  ⟨(deleteFromStore_idempotent { entries := [(1, reqDoc)], nextKey := 2 } 7).1,
   (deleteFromStore_idempotent { entries := [(1, reqDoc)], nextKey := 2 } 7).2
     (by simp)⟩

/-- Claim C6: `list()` enumerates in insertion order: it is empty on a
fresh store, three `put`s with no intervening deletion append exactly
their requests in order, and from the fresh store the keys are 1, 2, 3. -/
theorem list_insertion_order :
    getAllFromStore openDB = [] ∧
    (∀ (s : UploadQueueStore) (r1 r2 r3 : QueuedRequest),
      (getAllFromStore
          (putInStore (putInStore (putInStore s r1).1 r2).1 r3).1).map
          Prod.snd =
        (getAllFromStore s).map Prod.snd ++ [r1, r2, r3]) ∧
    (∀ r1 r2 r3 : QueuedRequest,
      getAllFromStore
          (putInStore (putInStore (putInStore openDB r1).1 r2).1 r3).1 =
        [(1, r1), (2, r2), (3, r3)]) := by
  refine ⟨rfl, ?_, ?_⟩
  · intro s r1 r2 r3; simp [getAllFromStore, putInStore]
  · intro r1 r2 r3; rfl

lemma applyOp_nextKey_le (s : UploadQueueStore) (op : StoreOp) :
    s.nextKey ≤ (applyOp s op).nextKey := by
  cases op with
  | put r => simp [applyOp, putInStore]
  | del k => simp [applyOp, deleteFromStore]
  | drain f d =>
    simp only [applyOp, processUploadQueue, if_false, Bool.false_eq_true,
      drainSnapshot_fst_nextKey]
    exact Nat.le_refl _

lemma assignedKeys_lower_bound (ops : List StoreOp) :
    ∀ (s : UploadQueueStore) (k : Nat),
      k ∈ assignedKeys s ops → s.nextKey ≤ k := by
  induction ops with
  | nil => intro s k hk; simp [assignedKeys] at hk
  | cons op rest ih =>
    intro s k hk
    cases op with
    | put r =>
      rcases List.mem_cons.mp hk with h | h
      · rw [h]; exact Nat.le_refl _
      · exact Nat.le_trans (applyOp_nextKey_le s (StoreOp.put r)) (ih _ k h)
    | del k' =>
      exact Nat.le_trans (applyOp_nextKey_le s (StoreOp.del k')) (ih _ k hk)
    | drain f d =>
      exact Nat.le_trans (applyOp_nextKey_le s (StoreOp.drain f d))
        (ih _ k hk)

/-- Claim C7: along any run of operations on a store instance, the keys
handed out by `put` are strictly increasing in order of assignment: every
`put` returns a key strictly greater than every key assigned before it,
keys are unique, and a key is never reused after its entry is deleted. -/
theorem assigned_keys_strictly_increasing
    (ops : List StoreOp) (s : UploadQueueStore) :
    List.Pairwise (fun a b => a < b) (assignedKeys s ops) := by
  induction ops generalizing s with
  | nil => simp [assignedKeys]
  | cons op rest ih =>
    cases op with
    | put r =>
      rw [assignedKeys]
      refine List.pairwise_cons.mpr ⟨?_, ih _⟩
      intro b hb
      have h1 := assignedKeys_lower_bound rest
        (applyOp s (StoreOp.put r)) b hb
      have h2 : (applyOp s (StoreOp.put r)).nextKey = s.nextKey + 1 := rfl
      simp only [putInStore]
      omega
    | del k => exact ih _
    | drain f d => exact ih _

/-- Claim C8: two drain cycles interleaved so that both snapshot the same
single entry whose replay always succeeds: the entry is removed from the
store exactly once (the first cycle empties it, the second cycle's
deletion of the already-removed key is a no-op), and both cycles resolve
with an `uploaded` outcome — neither raises an error from the second,
already-applied deletion. -/
theorem concurrent_drain_safe (k : Nat) (r : QueuedRequest)
    (f1 f2 : Nat → QueuedRequest → FetchOutcome)
    (h1 : f1 k r = FetchOutcome.response 200)
    (h2 : f2 k r = FetchOutcome.response 200) :
    concurrentDrains f1 (fun _ => false) f2 (fun _ => false)
        { entries := [(k, r)], nextKey := k + 1 } =
      ({ entries := [], nextKey := k + 1 },
       [EntryOutcome.uploaded], [EntryOutcome.uploaded]) ∧
    (drainSnapshot f1 (fun _ => false) [(k, r)]
        { entries := [(k, r)], nextKey := k + 1 }).1.entries = [] := by
  have hok : responseOk 200 = true := by decide
  constructor
  · simp [concurrentDrains, getAllFromStore, drainSnapshot, replayEntry,
      h1, h2, hok, deleteFromStore]
  · simp [drainSnapshot, replayEntry, h1, hok, deleteFromStore]

/-- Witness for C8 at a concrete input: key 3, both cycles replay with
status 200. -/
theorem concurrent_drain_safe_witness :
    concurrentDrains (fun _ _ => FetchOutcome.response 200) (fun _ => false)
        (fun _ _ => FetchOutcome.response 200) (fun _ => false)
        { entries := [(3, reqFace)], nextKey := 4 } =
      ({ entries := [], nextKey := 4 },
       [EntryOutcome.uploaded], [EntryOutcome.uploaded]) :=
  (concurrent_drain_safe 3 reqFace _ _ rfl rfl).1

/-- Claim C9: a platform `sync` event whose tag is not "sync-uploads"
runs no drain cycle at all — whatever the drain action would do, the
handler leaves the store unchanged and replays nothing. -/
theorem non_sync_tag_no_drain
    (drainAction : UploadQueueStore →
      UploadQueueStore × Except String (List EntryOutcome))
    (tag : String) (s : UploadQueueStore) (h : tag ≠ "sync-uploads") :
    handleSyncEvent drainAction tag s = (s, Except.ok []) := by
  simp [handleSyncEvent, h]

/-- Witness for C9 at a concrete input: tag "sync-messages" over a
one-entry store, with the real drain cycle as the drain action. -/
theorem non_sync_tag_no_drain_witness :
    handleSyncEvent
        (processUploadQueue false (fun _ _ => FetchOutcome.response 200)
          (fun _ => false))
        "sync-messages" { entries := [(1, reqDoc)], nextKey := 2 } =
      ({ entries := [(1, reqDoc)], nextKey := 2 }, Except.ok []) :=
  non_sync_tag_no_drain _ _ _ (by decide)

/-- Claim C10: when an entry's replay succeeds but the store deletion of
its key fails, the deletion error is caught inside that entry's own
handler: the drain cycle still resolves without error, the entry remains
in the store, and it is in the next cycle's snapshot, to be replayed
again later. -/
theorem delete_failure_entry_retained
    (s : UploadQueueStore) (f : Nat → QueuedRequest → FetchOutcome)
    (d : Nat → Bool) (e : Nat × QueuedRequest) (he : e ∈ s.entries)
    (hf : replaySucceeds (f e.1 e.2) = true) (hd : d e.1 = true) :
    ∃ s' outs,
      processUploadQueue false f d s = (s', Except.ok outs) ∧
      e ∈ s'.entries ∧ e ∈ getAllFromStore s' ∧
      entryOutcome f d e = EntryOutcome.deleteFailed ∧
      EntryOutcome.deleteFailed ∈ outs := by
  have hsplit : processUploadQueue false f d s =
      ((processUploadQueue false f d s).1,
       Except.ok (s.entries.map (entryOutcome f d))) := by
    rw [← processUploadQueue_snd f d s]
  have hret : e ∈ (processUploadQueue false f d s).1.entries :=
    mem_drain_of_not_killed _ _ _ _ he
      (killedKey_eq_false_of_deleteFails f d s.entries e.1 hd)
  have hout : entryOutcome f d e = EntryOutcome.deleteFailed := by
    unfold entryOutcome
    cases hfo : f e.1 e.2 with
    | networkError => simp [hfo, replaySucceeds] at hf
    | response st =>
      have hok : responseOk st = true := by
        simpa [hfo, replaySucceeds] using hf
      simp [hok, hd]
  refine ⟨_, _, hsplit, hret, hret, hout, ?_⟩
  rw [← hout]
  exact List.mem_map.mpr ⟨e, he, rfl⟩

/-- Witness for C10 at a concrete input: a one-entry queue, replay status
201, delete request for key 1 rejecting. -/
theorem delete_failure_entry_retained_witness :
    ∃ s' outs,
      processUploadQueue false (fun _ _ => FetchOutcome.response 201)
          (fun _ => true) { entries := [(1, reqDoc)], nextKey := 2 } =
        (s', Except.ok outs) ∧
      (1, reqDoc) ∈ s'.entries ∧ (1, reqDoc) ∈ getAllFromStore s' ∧
      entryOutcome (fun _ _ => FetchOutcome.response 201) (fun _ => true)
          (1, reqDoc) = EntryOutcome.deleteFailed ∧
      EntryOutcome.deleteFailed ∈ outs :=
  delete_failure_entry_retained { entries := [(1, reqDoc)], nextKey := 2 }
    (fun _ _ => FetchOutcome.response 201) (fun _ => true) (1, reqDoc)
    (by simp) (by simp [replaySucceeds, responseOk]) rfl
